import Mathlib

/-!
Shallow embedding of the `dynamic-mcp-registry` HTTP catalog service
(`src/routes/mcpServers.js`, `src/index.js`, `src/data/mcpServers.js`)
and proofs about its filtering, cursor pagination, lookup and error
behaviour.

The embedding follows the JavaScript source: query parameters are
`Option String` (absent vs. present), JavaScript `NaN` results of
`parseInt` are `Option.none`, `Array.prototype.slice` is modelled with
its exact negative-index clamping semantics, and the base64 cursor codec
models Node's `Buffer.from(s).toString('base64')` /
`Buffer.from(c, 'base64').toString()` on the ASCII strings the route
produces and consumes (UTF-8 bytes of ASCII characters coincide with
their code points).
-/

namespace McpRegistry

/-! ## JavaScript primitive embeddings -/

/-- Decimal digit characters `0`–`9`. -/
def isDigitChar (c : Char) : Bool :=
  48 ≤ c.toNat && c.toNat ≤ 57

/-- Whitespace as skipped by JavaScript `parseInt` (ASCII subset). -/
def isSpaceChar (c : Char) : Bool :=
  c = ' ' || c = '\t' || c = '\n' || c = '\r'

/-- One step of decimal accumulation: `acc * 10 + digit c`. -/
def digitStep (acc : Nat) (c : Char) : Nat :=
  acc * 10 + (c.toNat - 48)

/-- Value of a list of decimal digit characters, most significant first. -/
def digitsVal (l : List Char) : Nat :=
  l.foldl digitStep 0

/-- Hexadecimal digit characters `0`–`9`, `A`–`F`, `a`–`f`. -/
def isHexDigit (c : Char) : Bool :=
  isDigitChar c || (65 ≤ c.toNat && c.toNat ≤ 70) || (97 ≤ c.toNat && c.toNat ≤ 102)

/-- Value of a hexadecimal digit character. -/
def hexDigitVal (c : Char) : Nat :=
  if c.toNat ≤ 57 then c.toNat - 48
  else if c.toNat ≤ 70 then c.toNat - 55
  else c.toNat - 87

/-- Value of a list of hexadecimal digit characters. -/
def hexVal (l : List Char) : Nat :=
  l.foldl (fun a c => a * 16 + hexDigitVal c) 0

/-- Sign and remainder of a numeric literal body. -/
def stripSign : List Char → Int × List Char
  | c :: rest =>
    if c = '-' then (-1, rest)
    else if c = '+' then (1, rest)
    else (1, c :: rest)
  | [] => (1, [])

/-- Whether the (sign-stripped) body begins with `0x` or `0X`. -/
def startsHex : List Char → Bool
  | a :: b :: _ => a = '0' && (b = 'x' || b = 'X')
  | _ => false

/-- JavaScript `parseInt(s)` with unspecified radix: skip leading
whitespace, read an optional sign, switch to base 16 on a `0x`/`0X`
prefix, then read the longest prefix of digits of the active base;
`none` models `NaN`. -/
def parseIntJS (s : String) : Option Int :=
  let l := s.data.dropWhile isSpaceChar
  let sp := stripSign l
  if startsHex sp.2 then
    let digits := (sp.2.drop 2).takeWhile isHexDigit
    if digits.isEmpty then none
    else some (sp.1 * (hexVal digits : Int))
  else
    let digits := sp.2.takeWhile isDigitChar
    if digits.isEmpty then none
    else some (sp.1 * (digitsVal digits : Int))

/-- Decimal digit character for `d < 10`. -/
def digitChar (d : Nat) : Char :=
  Char.ofNat (48 + d)

/-- Decimal digit characters of `n`, most significant first
(JavaScript `Number.prototype.toString` for non-negative integers). -/
def natDigits (n : Nat) : List Char :=
  if _h : n < 10 then [digitChar n]
  else natDigits (n / 10) ++ [digitChar (n % 10)]
  decreasing_by exact Nat.div_lt_self (by omega) (by omega)

/-- JavaScript `Number.prototype.toString` on integer values. -/
def intToStringJS (n : Int) : String :=
  if n < 0 then String.mk ('-' :: natDigits n.natAbs)
  else String.mk (natDigits n.natAbs)

/-! ### Base64 (Node `Buffer` codec) -/

/-- Base64 alphabet character of a sextet value `v < 64`. -/
def sextetToChar (v : Nat) : Char :=
  if v < 26 then Char.ofNat (65 + v)
  else if v < 52 then Char.ofNat (97 + (v - 26))
  else if v < 62 then Char.ofNat (48 + (v - 52))
  else if v = 62 then '+'
  else '/'

/-- Sextet value of a base64 alphabet character; `none` for characters
outside the alphabet (Node's decoder skips them, `=` included). -/
def charToSextet (ch : Char) : Option Nat :=
  let n := ch.toNat
  if 65 ≤ n && n ≤ 90 then some (n - 65)
  else if 97 ≤ n && n ≤ 122 then some (n - 97 + 26)
  else if 48 ≤ n && n ≤ 57 then some (n - 48 + 52)
  else if n = 43 then some 62
  else if n = 47 then some 63
  else none

/-- `Buffer.prototype.toString('base64')`: encode bytes in groups of
three into four base64 characters, padding the tail with `=`. -/
def b64encodeBytes : List Nat → List Char
  | [] => []
  | [b0] =>
    [sextetToChar (b0 / 4), sextetToChar (b0 % 4 * 16), '=', '=']
  | [b0, b1] =>
    [sextetToChar (b0 / 4), sextetToChar (b0 % 4 * 16 + b1 / 16),
     sextetToChar (b1 % 16 * 4), '=']
  | b0 :: b1 :: b2 :: rest =>
    sextetToChar (b0 / 4) :: sextetToChar (b0 % 4 * 16 + b1 / 16) ::
    sextetToChar (b1 % 16 * 4 + b2 / 64) :: sextetToChar (b2 % 64) ::
    b64encodeBytes rest

/-- Reassemble bytes from a stream of sextet values, dropping the
padding remainders exactly as Node's base64 decoder does. -/
def sextetsToBytes : List Nat → List Nat
  | s0 :: s1 :: s2 :: s3 :: rest =>
    (s0 * 4 + s1 / 16) :: (s1 % 16 * 16 + s2 / 4) :: (s2 % 4 * 64 + s3) ::
    sextetsToBytes rest
  | [s0, s1, s2] => [s0 * 4 + s1 / 16, s1 % 16 * 16 + s2 / 4]
  | [s0, s1] => [s0 * 4 + s1 / 16]
  | _ => []

/-- `Buffer.from(s, 'base64')`: keep alphabet characters, drop the rest
(`=` and garbage alike), and reassemble bytes. -/
def b64decodeChars (l : List Char) : List Nat :=
  sextetsToBytes (l.filterMap charToSextet)

/-- UTF-8 bytes of an ASCII string (`Buffer.from(s)`); all strings fed
to the cursor codec by the route are ASCII. -/
def strToBytes (s : String) : List Nat :=
  s.data.map Char.toNat

/-- String of a list of ASCII byte values (`buffer.toString()`). -/
def bytesToStr (bs : List Nat) : String :=
  String.mk (bs.map Char.ofNat)

/-- `Buffer.from(s).toString('base64')`. -/
def b64encodeStr (s : String) : String :=
  String.mk (b64encodeBytes (strToBytes s))

/-- `Buffer.from(c, 'base64').toString()`. -/
def b64decodeStr (c : String) : String :=
  bytesToStr (b64decodeChars c.data)

/-! ### `Array.prototype.slice` -/

/-- `Array.prototype.slice(start, stop)` with JavaScript's clamping:
a negative index counts from the end of the array, and both indices
are clamped into `[0, length]`. -/
def jsSlice {α : Type} (l : List α) (start stop : Int) : List α :=
  let len : Int := l.length
  let k : Int := if start < 0 then max (len + start) 0 else min start len
  let e : Int := if stop < 0 then max (len + stop) 0 else min stop len
  (l.take e.toNat).drop k.toNat

/-- Effective end index of `jsSlice l start stop` inside `l`: the
clamped `stop`.  Elements of `l` at positions at or past this index are
the records lying past the returned page. -/
def sliceEnd {α : Type} (l : List α) (stop : Int) : Int :=
  if stop < 0 then max ((l.length : Int) + stop) 0 else min stop (l.length : Int)

/-! ## Data model (`src/data/mcpServers.js`) -/

/-- A tool entry of a server descriptor. -/
structure Tool where
  name : String
  description : String
  parameters : List String
deriving DecidableEq

/-- Deployment configuration of a server descriptor; `env` is the
ordered mapping of environment variable names to placeholder values. -/
structure Configuration where
  command : String
  args : List String
  env : List (String × String)
deriving DecidableEq

/-- Source repository reference of a server descriptor. -/
structure Repository where
  type : String
  url : String
deriving DecidableEq

/-- Deployment requirements and docker metadata of a descriptor. -/
structure Deployment where
  node : String
  environment : List String
  dockerImage : String
  dockerPorts : List String
deriving DecidableEq

/-- One catalog record.  `versionNote` models the ad-hoc field the
get-by-id route attaches to its response copy; it is `none` on every
stored catalog record. -/
structure McpServer where
  id : String
  name : String
  description : String
  version : String
  author : String
  license : String
  repository : Repository
  configuration : Configuration
  capabilities : List String
  tools : List Tool
  tags : List String
  deployment : Deployment
  versionNote : Option String := none
deriving DecidableEq

/-! ## Route embeddings (`src/routes/mcpServers.js`) -/

/-- `String.prototype.toLowerCase` (ASCII range, which is all the data
and queries exercised here use). -/
def lowerStr (s : String) : String :=
  String.map Char.toLower s

/-- `String.prototype.includes`: substring containment. -/
def jsIncludes (s sub : String) : Bool :=
  decide (sub.data <:+: s.data)

/-- Filter stage of `router.get('/')` (lines 44–60): the tag filter
runs when `req.query.tags` is truthy (present and non-empty), then the
capability filter when `req.query.capability` is truthy. -/
def filterServers (servers : List McpServer)
    (tagsQ capabilityQ : Option String) : List McpServer :=
  let afterTags :=
    match tagsQ with
    | some t =>
      if t ≠ "" then
        let filterTags := (t.splitOn ",").map (fun tag => lowerStr tag.trim)
        servers.filter (fun server =>
          server.tags.any (fun tag => filterTags.contains (lowerStr tag)))
      else servers
    | none => servers
  match capabilityQ with
  | some c =>
    if c ≠ "" then
      let capability := lowerStr c
      afterTags.filter (fun server =>
        server.capabilities.any (fun cap => jsIncludes (lowerStr cap) capability))
    else afterTags
  | none => afterTags

/-- `Math.min(parseInt(req.query.limit) || 50, 100)` (line 63):
`NaN` and `0` are falsy, so they fall back to `50`; only the upper
bound `100` is applied — there is no lower clamp. -/
def effectiveLimit (limitQ : Option String) : Int :=
  let parsed : Option Int :=
    match limitQ with
    | none => none
    | some s => parseIntJS s
  let base : Int :=
    match parsed with
    | none => 50
    | some v => if v = 0 then 50 else v
  min base 100

/-- Offset extraction (lines 64–76): `req.query.cursor || null` makes
an absent or empty cursor mean offset `0`; otherwise the cursor is
base64-decoded and fed to `parseInt`.  Neither `Buffer.from(c,
'base64')` nor `parseInt` ever throws on a string, so the `catch`
branch that would reset the offset to `0` is unreachable, and a
non-numeric payload yields `NaN` (`none`). -/
def decodeOffset (cursorQ : Option String) : Option Int :=
  match cursorQ with
  | none => some 0
  | some c =>
    if c = "" then some 0
    else parseIntJS (b64decodeStr c)

/-- `Buffer.from(nextOffset.toString()).toString('base64')` (line 82). -/
def encodeOffsetCursor (n : Int) : String :=
  b64encodeStr (intToStringJS n)

/-- Payload of the list route's success response. -/
structure ListData where
  servers : List McpServer
  total : Nat
  limit : Int
  cursor : Option String
deriving DecidableEq

/-- `router.get('/')` (lines 42–92): filter, clamp the limit, decode
the cursor, slice, and compute the next cursor.  A `NaN` offset
(`none`) coerces to `0` at both `slice` bounds, and `NaN < total` is
false, so the cursor comes out `null`. -/
def listServers (catalog : List McpServer)
    (tagsQ capabilityQ limitQ cursorQ : Option String) : ListData :=
  let filteredServers := filterServers catalog tagsQ capabilityQ
  let limit := effectiveLimit limitQ
  let total := filteredServers.length
  let offset := decodeOffset cursorQ
  let paginatedServers :=
    match offset with
    | some off => jsSlice filteredServers off (off + limit)
    | none => jsSlice filteredServers 0 0
  let nextCursor :=
    match offset with
    | some off =>
      if off + limit < (total : Int) then some (encodeOffsetCursor (off + limit))
      else none
    | none => none
  { servers := paginatedServers, total := total, limit := limit,
    cursor := nextCursor }

/-- Result of `router.get('/:id')`. -/
inductive ServerResponse where
  | notFound
  | ok (server : McpServer)
deriving DecidableEq

/-- `router.get('/:id')` (lines 146–184): find by id, 404 when absent;
on a truthy version query that differs from the stored version, attach
`versionNote` to a copy (`{ ...server }`) of the record. -/
def getServerById (catalog : List McpServer) (id : String)
    (versionQ : Option String) : ServerResponse :=
  match catalog.find? (fun s => s.id = id) with
  | none => .notFound
  | some server =>
    let responseServer :=
      match versionQ with
      | some requestedVersion =>
        if requestedVersion ≠ "" && requestedVersion ≠ server.version then
          { server with versionNote := some ("Requested version " ++
              requestedVersion ++ " not available. Returning current version " ++
              server.version ++ ".") }
        else server
      | none => server
    .ok responseServer

/-- Result of `router.get('/:id/config')`. -/
inductive ConfigResponse where
  | notFound
  | ok (configuration : Configuration)
  | unsupportedFormat
deriving DecidableEq

/-- `router.get('/:id/config')` (lines 215–257):
`req.query.format || 'json'` makes an absent or empty format default to
`json`; `json` answers the configuration, anything else is a 400
`UNSUPPORTED_FORMAT`. -/
def getServerConfig (catalog : List McpServer) (id : String)
    (formatQ : Option String) : ConfigResponse :=
  match catalog.find? (fun s => s.id = id) with
  | none => .notFound
  | some server =>
    let format :=
      match formatQ with
      | none => "json"
      | some f => if f = "" then "json" else f
    if format = "json" then .ok server.configuration
    else .unsupportedFormat

/-- Result of `router.get('/:id/tools')`. -/
inductive ToolsResponse where
  | notFound
  | ok (tools : List Tool)
deriving DecidableEq

/-- `router.get('/:id/tools')` (lines 281–311). -/
def getServerTools (catalog : List McpServer) (id : String) : ToolsResponse :=
  match catalog.find? (fun s => s.id = id) with
  | none => .notFound
  | some server => .ok server.tools

/-- Detail field of the 500 body built by the per-route `catch` blocks
(e.g. lines 93–101): `details: error.message` is always present, with
no environment check. -/
def routeErrorDetails (_nodeEnv : String) (errMessage : String) : Option String :=
  some errMessage

/-- Detail field of the 500 body built by the global error handler
(`src/index.js` lines 380–389): spread in `details` only when
`process.env.NODE_ENV === 'development'`. -/
def globalErrorDetails (nodeEnv : String) (errMessage : String) : Option String :=
  if nodeEnv = "development" then some errMessage else none

/-! ## Request machine over the read-only catalog

`src/index.js` mounts the four routes above over the single module-level
`mcpServers` array.  Translating the handlers into state-passing style,
each returns the store it finished with: the JavaScript bodies only read
`mcpServers` (the list route copies the array with `[...mcpServers]`,
the id route copies the record with `{ ...server }` before annotating),
so the store a handler hands back is the store it received. -/

/-- One incoming HTTP request to the four catalog routes. -/
inductive Request where
  | list (tagsQ capabilityQ limitQ cursorQ : Option String)
  | byId (id : String) (versionQ : Option String)
  | config (id : String) (formatQ : Option String)
  | tools (id : String)

/-- Response of any of the four routes. -/
inductive Response where
  | listR (d : ListData)
  | serverR (r : ServerResponse)
  | configR (r : ConfigResponse)
  | toolsR (r : ToolsResponse)
deriving DecidableEq

/-- Dispatch one request against the catalog store, returning the
response and the store as the handler leaves it. -/
def handle (catalog : List McpServer) : Request → Response × List McpServer
  | .list tagsQ capabilityQ limitQ cursorQ =>
    (.listR (listServers catalog tagsQ capabilityQ limitQ cursorQ), catalog)
  | .byId id versionQ => (.serverR (getServerById catalog id versionQ), catalog)
  | .config id formatQ => (.configR (getServerConfig catalog id formatQ), catalog)
  | .tools id => (.toolsR (getServerTools catalog id), catalog)

/-- The catalog store after serving a sequence of requests. -/
def runRequests (catalog : List McpServer) (reqs : List Request) : List McpServer :=
  reqs.foldl (fun c r => (handle c r).2) catalog

/-! ## Cursor chain -/

/-- Concatenation of the pages obtained from the list route by starting
at a given cursor and repeatedly following the returned next cursor
until it is `null`; `fuel` bounds the number of follow-ups. -/
def collectPages (catalog : List McpServer)
    (tagsQ capabilityQ limitQ : Option String) :
    Nat → Option String → List McpServer
  | 0, cursorQ => (listServers catalog tagsQ capabilityQ limitQ cursorQ).servers
  | fuel + 1, cursorQ =>
    match (listServers catalog tagsQ capabilityQ limitQ cursorQ).cursor with
    | some next =>
      (listServers catalog tagsQ capabilityQ limitQ cursorQ).servers ++
        collectPages catalog tagsQ capabilityQ limitQ fuel (some next)
    | none => (listServers catalog tagsQ capabilityQ limitQ cursorQ).servers

/-! ## Sample catalog records (concrete inputs for witnesses) -/

/-- A small concrete descriptor in the shape of the GitHub entry of
`src/data/mcpServers.js`. -/
def ghServer : McpServer where
  id := "github-mcp-server"
  name := "GitHub MCP Server"
  description := "GitHub API integration"
  version := "1.0.0"
  author := "GitHub"
  license := "MIT"
  repository := { type := "git", url := "https://github.com/github/github-mcp-server.git" }
  configuration :=
    { command := "npx", args := ["@github/github-mcp-server"],
      env := [("GITHUB_TOKEN", "TOKEN")] }
  capabilities := ["repository-management", "issue-management"]
  tools := [{ name := "get_repository", description := "Get repository info",
              parameters := ["owner", "repo"] }]
  tags := ["github", "git", "repository"]
  deployment :=
    { node := ">=18.0.0", environment := ["GITHUB_TOKEN"],
      dockerImage := "ghcr.io/github/github-mcp-server", dockerPorts := ["3000"] }

/-- A small concrete descriptor in the shape of the Playwright entry. -/
def pwServer : McpServer where
  id := "playwright-mcp-server"
  name := "Playwright MCP Server"
  description := "Browser automation"
  version := "0.0.1"
  author := "Microsoft"
  license := "Apache-2.0"
  repository := { type := "git", url := "https://github.com/microsoft/playwright-mcp.git" }
  configuration := { command := "npx", args := ["@playwright/mcp@latest"], env := [] }
  capabilities := ["browser-automation", "web-scraping"]
  tools := [{ name := "browser_navigate", description := "Navigate to a URL",
              parameters := ["url"] }]
  tags := ["playwright", "browser-automation", "testing"]
  deployment :=
    { node := ">=18.0.0", environment := [],
      dockerImage := "mcr.microsoft.com/playwright/mcp", dockerPorts := ["3000"] }

/-- A two-record catalog mirroring the shipped data's shape. -/
def sampleCatalog : List McpServer := [ghServer, pwServer]

/-! ## Helper lemmas: decimal digits and `parseInt` -/

theorem toNat_digitChar : ∀ d, d < 10 → (digitChar d).toNat = 48 + d := by decide

theorem natDigits_ne_nil (n : Nat) : natDigits n ≠ [] := by
  rw [natDigits]
  split
  · simp
  · simp

theorem natDigits_all_digit (n : Nat) :
    ∀ c ∈ natDigits n, 48 ≤ c.toNat ∧ c.toNat ≤ 57 := by
  induction n using natDigits.induct with
  | case1 n h =>
    rw [natDigits]
    simp only [dif_pos h]
    intro c hc
    simp only [List.mem_singleton] at hc
    subst hc
    have := toNat_digitChar n h
    omega
  | case2 n h ih =>
    rw [natDigits]
    simp only [dif_neg h]
    intro c hc
    rcases List.mem_append.mp hc with h1 | h2
    · exact ih c h1
    · simp only [List.mem_singleton] at h2
      subst h2
      have := toNat_digitChar (n % 10) (Nat.mod_lt _ (by omega))
      omega

theorem foldl_digitStep (n : Nat) :
    ∀ a, List.foldl digitStep a (natDigits n) =
      a * 10 ^ (natDigits n).length + n := by
  induction n using natDigits.induct with
  | case1 n h =>
    intro a
    rw [natDigits]
    simp only [dif_pos h, List.foldl_cons, List.foldl_nil, List.length_singleton]
    rw [digitStep, toNat_digitChar n h]
    omega
  | case2 n h ih =>
    intro a
    rw [natDigits]
    simp only [dif_neg h, List.foldl_append, List.foldl_cons, List.foldl_nil,
      List.length_append, List.length_singleton]
    rw [ih a, digitStep, toNat_digitChar (n % 10) (Nat.mod_lt _ (by omega))]
    rw [pow_succ]
    have hsplit : (a * 10 ^ (natDigits (n / 10)).length + n / 10) * 10 +
        (48 + n % 10 - 48) =
        a * 10 ^ (natDigits (n / 10)).length * 10 + (n / 10 * 10 + n % 10) := by
      ring_nf
      omega
    rw [hsplit]
    have hdm : n / 10 * 10 + n % 10 = n := by omega
    rw [hdm, mul_assoc]

theorem digitsVal_natDigits (n : Nat) : digitsVal (natDigits n) = n := by
  rw [digitsVal, foldl_digitStep n 0]
  simp

theorem isSpaceChar_eq_false_of_digit (c : Char)
    (h : 48 ≤ c.toNat ∧ c.toNat ≤ 57) : isSpaceChar c = false := by
  rw [isSpaceChar]
  simp only [Bool.or_eq_false_iff, decide_eq_false_iff_not]
  refine ⟨⟨⟨?_, ?_⟩, ?_⟩, ?_⟩ <;> rintro rfl <;> simp_all

theorem stripSign_of_digit (c : Char) (rest : List Char)
    (h : 48 ≤ c.toNat ∧ c.toNat ≤ 57) :
    stripSign (c :: rest) = (1, c :: rest) := by
  rw [stripSign]
  rw [if_neg, if_neg]
  · rintro rfl
    simp_all
  · rintro rfl
    simp_all

theorem startsHex_of_digits (l : List Char)
    (h : ∀ c ∈ l, 48 ≤ c.toNat ∧ c.toNat ≤ 57) : startsHex l = false := by
  match l with
  | [] => rfl
  | [_] => rfl
  | a :: b :: t =>
    rw [startsHex]
    have hb := h b (by simp)
    simp only [Bool.and_eq_false_iff, Bool.or_eq_false_iff, decide_eq_false_iff_not]
    right
    constructor <;> rintro rfl <;> simp_all

theorem takeWhile_digits (l : List Char)
    (h : ∀ c ∈ l, 48 ≤ c.toNat ∧ c.toNat ≤ 57) :
    l.takeWhile isDigitChar = l := by
  rw [List.takeWhile_eq_self_iff]
  intro c hc
  have := h c hc
  rw [isDigitChar]
  simp
  omega

theorem parseIntJS_natDigits (n : Nat) :
    parseIntJS (String.mk (natDigits n)) = some (n : Int) := by
  obtain ⟨d, rest, hd⟩ := List.exists_cons_of_ne_nil (natDigits_ne_nil n)
  have hall := natDigits_all_digit n
  rw [parseIntJS]
  have hdata : (String.mk (natDigits n)).data = natDigits n := rfl
  rw [hdata, hd]
  rw [List.dropWhile_cons]
  rw [isSpaceChar_eq_false_of_digit d (hall d (by rw [hd]; simp))]
  simp only [Bool.false_eq_true, if_false]
  rw [stripSign_of_digit d rest (hall d (by rw [hd]; simp))]
  rw [← hd]
  rw [startsHex_of_digits _ hall]
  simp only [Bool.false_eq_true, if_false]
  rw [takeWhile_digits _ hall]
  have hne : (natDigits n).isEmpty = false := by
    simp [List.isEmpty_iff, natDigits_ne_nil n]
  rw [hne]
  simp only [Bool.false_eq_true, if_false]
  rw [digitsVal_natDigits]
  simp

theorem parseIntJS_negDigits (n : Nat) :
    parseIntJS (String.mk ('-' :: natDigits n)) = some (-(n : Int)) := by
  have hall := natDigits_all_digit n
  rw [parseIntJS]
  have hdata : (String.mk ('-' :: natDigits n)).data = '-' :: natDigits n := rfl
  rw [hdata]
  rw [List.dropWhile_cons]
  have hsp : isSpaceChar '-' = false := by decide
  rw [hsp]
  simp only [Bool.false_eq_true, if_false]
  rw [stripSign]
  rw [if_pos rfl]
  rw [startsHex_of_digits _ hall]
  simp only [Bool.false_eq_true, if_false]
  rw [takeWhile_digits _ hall]
  have hne : (natDigits n).isEmpty = false := by
    simp [List.isEmpty_iff, natDigits_ne_nil n]
  rw [hne]
  simp only [Bool.false_eq_true, if_false]
  rw [digitsVal_natDigits]
  simp

/-! ## Helper lemmas: base64 round trip -/

theorem charToSextet_sextetToChar :
    ∀ v, v < 64 → charToSextet (sextetToChar v) = some v := by decide

theorem charToSextet_pad : charToSextet '=' = none := by decide

theorem b64_roundtrip : ∀ bs : List Nat, (∀ b ∈ bs, b < 256) →
    b64decodeChars (b64encodeBytes bs) = bs
  | [], _ => rfl
  | [b0], h => by
    have h0 : b0 < 256 := h b0 (by simp)
    have e0 := charToSextet_sextetToChar (b0 / 4) (by omega)
    have e1 := charToSextet_sextetToChar (b0 % 4 * 16) (by omega)
    rw [b64encodeBytes, b64decodeChars]
    simp only [List.filterMap_cons, List.filterMap_nil, e0, e1, charToSextet_pad]
    rw [sextetsToBytes]
    simp only [List.cons.injEq, and_true]
    omega
  | [b0, b1], h => by
    have h0 : b0 < 256 := h b0 (by simp)
    have h1 : b1 < 256 := h b1 (by simp)
    have e0 := charToSextet_sextetToChar (b0 / 4) (by omega)
    have e1 := charToSextet_sextetToChar (b0 % 4 * 16 + b1 / 16) (by omega)
    have e2 := charToSextet_sextetToChar (b1 % 16 * 4) (by omega)
    rw [b64encodeBytes, b64decodeChars]
    simp only [List.filterMap_cons, List.filterMap_nil, e0, e1, e2, charToSextet_pad]
    rw [sextetsToBytes]
    simp only [List.cons.injEq, and_true]
    omega
  | b0 :: b1 :: b2 :: rest, h => by
    have h0 : b0 < 256 := h b0 (by simp)
    have h1 : b1 < 256 := h b1 (by simp)
    have h2 : b2 < 256 := h b2 (by simp)
    have e0 := charToSextet_sextetToChar (b0 / 4) (by omega)
    have e1 := charToSextet_sextetToChar (b0 % 4 * 16 + b1 / 16) (by omega)
    have e2 := charToSextet_sextetToChar (b1 % 16 * 4 + b2 / 64) (by omega)
    have e3 := charToSextet_sextetToChar (b2 % 64) (by omega)
    have ih := b64_roundtrip rest (fun b hb => h b (by simp [hb]))
    rw [b64encodeBytes, b64decodeChars]
    simp only [List.filterMap_cons, e0, e1, e2, e3]
    rw [sextetsToBytes]
    rw [b64decodeChars] at ih
    rw [ih]
    simp only [List.cons.injEq, and_true]
    refine ⟨?_, ?_, ?_⟩ <;> omega

theorem b64_str_roundtrip (s : String) (h : ∀ c ∈ s.data, c.toNat < 256) :
    b64decodeStr (b64encodeStr s) = s := by
  rw [b64encodeStr, b64decodeStr]
  have hdata : (String.mk (b64encodeBytes (strToBytes s))).data =
      b64encodeBytes (strToBytes s) := rfl
  rw [hdata]
  have hbytes : ∀ b ∈ strToBytes s, b < 256 := by
    intro b hb
    rw [strToBytes] at hb
    obtain ⟨c, hc, rfl⟩ := List.mem_map.mp hb
    exact h c hc
  rw [b64_roundtrip _ hbytes]
  rw [bytesToStr, strToBytes, List.map_map]
  have hid : ∀ c ∈ s.data, (Char.ofNat ∘ Char.toNat) c = id c := by
    intro c _
    simp [Char.ofNat_toNat]
  rw [List.map_congr_left hid, List.map_id]

theorem intToStringJS_ascii (n : Int) :
    ∀ c ∈ (intToStringJS n).data, c.toNat < 256 := by
  rw [intToStringJS]
  split
  · intro c hc
    have hdata : (String.mk ('-' :: natDigits n.natAbs)).data =
        '-' :: natDigits n.natAbs := rfl
    rw [hdata] at hc
    rcases List.mem_cons.mp hc with rfl | hmem
    · decide
    · have := natDigits_all_digit n.natAbs c hmem
      omega
  · intro c hc
    have hdata : (String.mk (natDigits n.natAbs)).data = natDigits n.natAbs := rfl
    rw [hdata] at hc
    have := natDigits_all_digit n.natAbs c hc
    omega

theorem b64encodeBytes_ne_nil (bs : List Nat) (h : bs ≠ []) :
    b64encodeBytes bs ≠ [] := by
  match bs with
  | [] => exact absurd rfl h
  | [_] => simp [b64encodeBytes]
  | [_, _] => simp [b64encodeBytes]
  | _ :: _ :: _ :: _ => simp [b64encodeBytes]

theorem encodeOffsetCursor_ne_empty (n : Int) : encodeOffsetCursor n ≠ "" := by
  rw [encodeOffsetCursor, b64encodeStr]
  intro hcontra
  have hdata : (String.mk (b64encodeBytes (strToBytes (intToStringJS n)))).data =
      b64encodeBytes (strToBytes (intToStringJS n)) := rfl
  have hnil : b64encodeBytes (strToBytes (intToStringJS n)) = [] := by
    rw [← hdata, hcontra]
  apply b64encodeBytes_ne_nil _ _ hnil
  rw [strToBytes]
  simp only [ne_eq, List.map_eq_nil_iff]
  rw [intToStringJS]
  split
  · intro hc
    have : ('-' :: natDigits n.natAbs) = [] := hc
    simp at this
  · intro hc
    exact natDigits_ne_nil n.natAbs hc

theorem decodeOffset_encode_nat (n : Nat) :
    decodeOffset (some (encodeOffsetCursor (n : Int))) = some (n : Int) := by
  rw [decodeOffset]
  rw [if_neg (encodeOffsetCursor_ne_empty _)]
  rw [encodeOffsetCursor]
  rw [b64_str_roundtrip _ (intToStringJS_ascii _)]
  rw [intToStringJS]
  rw [if_neg (by omega)]
  rw [Int.natAbs_ofNat]
  exact parseIntJS_natDigits n

theorem decodeOffset_encode_neg (k : Nat) (hk : 0 < k) :
    decodeOffset (some (encodeOffsetCursor (-(k : Int)))) = some (-(k : Int)) := by
  rw [decodeOffset]
  rw [if_neg (encodeOffsetCursor_ne_empty _)]
  rw [encodeOffsetCursor]
  rw [b64_str_roundtrip _ (intToStringJS_ascii _)]
  rw [intToStringJS]
  rw [if_pos (by omega)]
  have habs : (-(k : Int)).natAbs = k := by
    simp [Int.natAbs_neg]
  rw [habs]
  exact parseIntJS_negDigits k

/-! ## Helper lemmas: `jsSlice` and the list route -/

theorem jsSlice_nonneg {α : Type} (l : List α) (a b : Int)
    (ha : 0 ≤ a) (hb : 0 ≤ b) :
    jsSlice l a b = (l.take b.toNat).drop a.toNat := by
  rw [jsSlice]
  simp only [if_neg (by omega : ¬a < 0), if_neg (by omega : ¬b < 0)]
  have h1 : (min b (l.length : Int)).toNat = min b.toNat l.length := by omega
  have h2 : (min a (l.length : Int)).toNat = min a.toNat l.length := by omega
  rw [h1, h2]
  have htake : l.take (min b.toNat l.length) = l.take b.toNat := by
    rcases Nat.le_total b.toNat l.length with h | h
    · rw [Nat.min_eq_left h]
    · rw [Nat.min_eq_right h, List.take_length, List.take_of_length_le h]
  rw [htake]
  rcases Nat.le_total a.toNat l.length with h | h
  · rw [Nat.min_eq_left h]
  · rw [Nat.min_eq_right h]
    have hlen : (l.take b.toNat).length ≤ l.length := by
      rw [List.length_take]
      exact min_le_right _ _
    rw [List.drop_eq_nil_of_le, List.drop_eq_nil_of_le]
    · exact le_trans hlen h
    · exact hlen

theorem jsSlice_tail {α : Type} (l : List α) (off : Nat) (L : Int) (hL : 0 ≤ L)
    (hlen : (l.length : Int) ≤ (off : Int) + L) :
    jsSlice l (off : Int) ((off : Int) + L) = l.drop off := by
  rw [jsSlice_nonneg l _ _ (by omega) (by omega)]
  have hoff : ((off : Int)).toNat = off := by omega
  have htk : l.length ≤ ((off : Int) + L).toNat := by omega
  rw [List.take_of_length_le htk, hoff]

theorem listServers_of_offset (catalog : List McpServer)
    (tagsQ capabilityQ limitQ cursorQ : Option String) (off : Int)
    (h : decodeOffset cursorQ = some off) :
    listServers catalog tagsQ capabilityQ limitQ cursorQ =
      { servers := jsSlice (filterServers catalog tagsQ capabilityQ) off
          (off + effectiveLimit limitQ),
        total := (filterServers catalog tagsQ capabilityQ).length,
        limit := effectiveLimit limitQ,
        cursor :=
          if off + effectiveLimit limitQ <
              ((filterServers catalog tagsQ capabilityQ).length : Int) then
            some (encodeOffsetCursor (off + effectiveLimit limitQ))
          else none } := by
  rw [listServers, h]

theorem collectPages_drop (catalog : List McpServer) (tq cq lq : Option String)
    (hL : 1 ≤ effectiveLimit lq) :
    ∀ (fuel off : Nat) (cursorQ : Option String),
      decodeOffset cursorQ = some (off : Int) →
      ((filterServers catalog tq cq).length : Int) ≤
        (off : Int) + ((fuel : Int) + 1) * effectiveLimit lq →
      collectPages catalog tq cq lq fuel cursorQ =
        (filterServers catalog tq cq).drop off := by
  intro fuel
  induction fuel with
  | zero =>
    intro off cursorQ hdec hbound
    rw [collectPages]
    have hserv := congrArg ListData.servers
      (listServers_of_offset catalog tq cq lq cursorQ _ hdec)
    rw [hserv]
    push_cast at hbound
    exact jsSlice_tail _ off _ (by omega) (by omega)
  | succ fuel ih =>
    intro off cursorQ hdec hbound
    rw [collectPages]
    have hserv := congrArg ListData.servers
      (listServers_of_offset catalog tq cq lq cursorQ _ hdec)
    have hcur := congrArg ListData.cursor
      (listServers_of_offset catalog tq cq lq cursorQ _ hdec)
    by_cases hlt : (off : Int) + effectiveLimit lq <
        ((filterServers catalog tq cq).length : Int)
    · rw [if_pos hlt] at hcur
      rw [hcur, hserv]
      simp only []
      have hoff' : (off : Int) + effectiveLimit lq =
          ((off + (effectiveLimit lq).toNat : Nat) : Int) := by
        push_cast
        omega
      have hdec' : decodeOffset (some (encodeOffsetCursor
          ((off : Int) + effectiveLimit lq))) =
          some (((off + (effectiveLimit lq).toNat : Nat) : Int)) := by
        rw [hoff']
        exact decodeOffset_encode_nat _
      have hbound' : ((filterServers catalog tq cq).length : Int) ≤
          ((off + (effectiveLimit lq).toNat : Nat) : Int) +
            ((fuel : Int) + 1) * effectiveLimit lq := by
        push_cast
        push_cast at hbound
        have : ((fuel : Int) + 1 + 1) * effectiveLimit lq =
            effectiveLimit lq + ((fuel : Int) + 1) * effectiveLimit lq := by ring
        omega
      rw [ih _ _ hdec' hbound']
      have hslice : jsSlice (filterServers catalog tq cq) (off : Int)
          ((off : Int) + effectiveLimit lq) =
          ((filterServers catalog tq cq).take
            (off + (effectiveLimit lq).toNat)).drop off := by
        rw [jsSlice_nonneg _ _ _ (by omega) (by omega)]
        have h1 : ((off : Int) + effectiveLimit lq).toNat =
            off + (effectiveLimit lq).toNat := by omega
        have h2 : ((off : Int)).toNat = off := by omega
        rw [h1, h2]
      rw [hslice]
      have hsplit := List.take_append_drop (off + (effectiveLimit lq).toNat)
        (filterServers catalog tq cq)
      conv_rhs => rw [← hsplit]
      rw [List.drop_append_of_le_length]
      rw [List.length_take]
      have hle1 : off + (effectiveLimit lq).toNat ≤
          (filterServers catalog tq cq).length := by omega
      omega
    · rw [if_neg hlt] at hcur
      rw [hcur, hserv]
      simp only []
      push_cast at hbound
      exact jsSlice_tail _ off _ (by omega) (by omega)

/-! ## Claims -/

/-- C1: for every filtered sequence, clamped limit, and offset decoded
from the cursor (`0` when no cursor is given), the list route returns
next-cursor `encode(offset + limit)` exactly when
`offset + limit < total filtered length` and `null` otherwise; the
next-cursor is never `null` while records remain past the returned
page, and a `null` next-cursor implies no records remain past the
page. -/
theorem nextCursor_spec (catalog : List McpServer)
    (tagsQ capabilityQ limitQ cursorQ : Option String) (off : Int)
    (h : decodeOffset cursorQ = some off) :
    ((listServers catalog tagsQ capabilityQ limitQ cursorQ).cursor =
      if off + effectiveLimit limitQ <
          ((filterServers catalog tagsQ capabilityQ).length : Int) then
        some (encodeOffsetCursor (off + effectiveLimit limitQ))
      else none)
    ∧ (sliceEnd (filterServers catalog tagsQ capabilityQ)
          (off + effectiveLimit limitQ) <
          ((filterServers catalog tagsQ capabilityQ).length : Int) →
        (listServers catalog tagsQ capabilityQ limitQ cursorQ).cursor ≠ none)
    ∧ ((listServers catalog tagsQ capabilityQ limitQ cursorQ).cursor = none →
        ¬ sliceEnd (filterServers catalog tagsQ capabilityQ)
            (off + effectiveLimit limitQ) <
          ((filterServers catalog tagsQ capabilityQ).length : Int)) := by
  have hcur : (listServers catalog tagsQ capabilityQ limitQ cursorQ).cursor =
      (if off + effectiveLimit limitQ <
          ((filterServers catalog tagsQ capabilityQ).length : Int) then
        some (encodeOffsetCursor (off + effectiveLimit limitQ))
      else none) :=
    congrArg ListData.cursor
      (listServers_of_offset catalog tagsQ capabilityQ limitQ cursorQ off h)
  refine ⟨hcur, ?_, ?_⟩
  · intro hrem
    rw [hcur]
    by_cases hlt : off + effectiveLimit limitQ <
        ((filterServers catalog tagsQ capabilityQ).length : Int)
    · rw [if_pos hlt]
      simp
    · exfalso
      rw [sliceEnd, if_neg (by omega)] at hrem
      omega
  · intro hnone
    rw [hcur] at hnone
    by_cases hlt : off + effectiveLimit limitQ <
        ((filterServers catalog tagsQ capabilityQ).length : Int)
    · rw [if_pos hlt] at hnone
      exact absurd hnone (by simp)
    · rw [sliceEnd, if_neg (by omega)]
      omega

/-- C1 witness: the theorem applied to the sample catalog with no query
parameters (decoded offset `0`). -/
theorem nextCursor_spec_witness :
    ((listServers sampleCatalog none none none none).cursor =
      if (0 : Int) + effectiveLimit none <
          ((filterServers sampleCatalog none none).length : Int) then
        some (encodeOffsetCursor ((0 : Int) + effectiveLimit none))
      else none)
    ∧ (sliceEnd (filterServers sampleCatalog none none)
          ((0 : Int) + effectiveLimit none) <
          ((filterServers sampleCatalog none none).length : Int) →
        (listServers sampleCatalog none none none none).cursor ≠ none)
    ∧ ((listServers sampleCatalog none none none none).cursor = none →
        ¬ sliceEnd (filterServers sampleCatalog none none)
            ((0 : Int) + effectiveLimit none) <
          ((filterServers sampleCatalog none none).length : Int)) :=
  nextCursor_spec sampleCatalog none none none none 0 rfl

/-- C2 counterexample: a requested limit of `-5` is parsed to `-5`,
which is truthy and below `100`, so the effective limit is `-5` — not
`50`, and outside `[1, 100]`. -/
theorem limit_negative_counterexample :
    (listServers sampleCatalog none none (some "-5") none).limit = -5 ∧
    ¬ (1 ≤ (listServers sampleCatalog none none (some "-5") none).limit) := by
  constructor
  · rfl
  · decide

/-- C2 amended: the effective limit is at most `100`; an absent,
non-numeric, or zero limit defaults to `50`; a nonzero parsed limit `v`
yields `min v 100`, which lies in `[1, 100]` when `v ≥ 1` but passes
through unclamped when `v` is negative. -/
theorem effectiveLimit_spec (limitQ : Option String) :
    effectiveLimit limitQ ≤ 100
    ∧ ((limitQ.bind parseIntJS = none ∨ limitQ.bind parseIntJS = some 0) →
        effectiveLimit limitQ = 50)
    ∧ (∀ v, limitQ.bind parseIntJS = some v → v ≠ 0 →
        effectiveLimit limitQ = min v 100)
    ∧ (∀ v, limitQ.bind parseIntJS = some v → 1 ≤ v →
        1 ≤ effectiveLimit limitQ) := by
  have heff : effectiveLimit limitQ =
      min (match limitQ.bind parseIntJS with
        | none => 50
        | some v => if v = 0 then 50 else v) 100 := by
    cases limitQ <;> rfl
  refine ⟨?_, ?_, ?_, ?_⟩
  · rw [heff]
    exact min_le_right _ _
  · rintro (hn | h0)
    · rw [heff, hn]
      decide
    · rw [heff, h0]
      decide
  · intro v hv hv0
    rw [heff, hv]
    simp [hv0]
  · intro v hv hv1
    rw [heff, hv]
    show (1 : Int) ≤ (if v = 0 then (50 : Int) else v) ⊓ 100
    rw [if_neg (by omega : ¬v = 0)]
    omega

/-- C2 witness: a limit of `-7` survives unclamped as `min (-7) 100 =
-7`, below the claimed lower bound. -/
theorem effectiveLimit_spec_witness :
    effectiveLimit (some "-7") ≤ 100 ∧ effectiveLimit (some "-7") = min (-7) 100 :=
  ⟨(effectiveLimit_spec (some "-7")).1,
   (effectiveLimit_spec (some "-7")).2.2.1 (-7) rfl (by decide)⟩

/-- C3 (behavior at the failing input): the cursor `"Z2FyYmFnZQ=="`
(base64 of `"garbage"`) decodes to `NaN`, not to offset `0`: the route
answers an empty page with a `null` next-cursor, while an offset of `0`
would return the first page of the catalog. -/
theorem malformed_cursor_yields_empty_page :
    decodeOffset (some "Z2FyYmFnZQ==") = none
    ∧ (listServers sampleCatalog none none none (some "Z2FyYmFnZQ==")).servers = []
    ∧ (listServers sampleCatalog none none none (some "Z2FyYmFnZQ==")).cursor = none
    ∧ (listServers sampleCatalog none none none none).servers = sampleCatalog := by
  refine ⟨by decide, rfl, rfl, rfl⟩

/-- C4: the cursor codec round-trips every non-negative integer offset:
decoding the cursor produced for `n` yields `n` back. -/
theorem cursor_roundtrip (n : Nat) :
    decodeOffset (some (encodeOffsetCursor (n : Int))) = some (n : Int) :=
  decodeOffset_encode_nat n

/-- C4 witness: the round trip evaluated at the concrete offset `42`. -/
theorem cursor_roundtrip_witness :
    decodeOffset (some (encodeOffsetCursor ((42 : Nat) : Int))) =
      some ((42 : Nat) : Int) :=
  cursor_roundtrip 42

/-- C5: the filter stage keeps exactly the descriptors that match every
provided dimension — some own tag equal (case-insensitively, after
splitting the query on commas and trimming) to a requested tag, and
some own capability containing the requested string case-insensitively
— with OR within tags, AND across dimensions, all descriptors passing
when nothing is provided, and the catalog order preserved (the result
is always a sublist of the catalog). -/
theorem filterServers_spec (catalog : List McpServer) (t c : String)
    (ht : t ≠ "") (hc : c ≠ "") :
    filterServers catalog none none = catalog
    ∧ filterServers catalog (some t) none =
        catalog.filter (fun server => server.tags.any (fun tag =>
          ((t.splitOn ",").map (fun x => lowerStr x.trim)).contains (lowerStr tag)))
    ∧ filterServers catalog none (some c) =
        catalog.filter (fun server => server.capabilities.any (fun cap =>
          jsIncludes (lowerStr cap) (lowerStr c)))
    ∧ filterServers catalog (some t) (some c) =
        catalog.filter (fun server =>
          (server.tags.any (fun tag =>
            ((t.splitOn ",").map (fun x => lowerStr x.trim)).contains (lowerStr tag)))
          && (server.capabilities.any (fun cap =>
            jsIncludes (lowerStr cap) (lowerStr c))))
    ∧ ∀ tagsQ capabilityQ : Option String,
        (filterServers catalog tagsQ capabilityQ).Sublist catalog := by
  refine ⟨rfl, ?_, ?_, ?_, ?_⟩
  · rw [filterServers.eq_def]
    simp only [if_pos ht]
  · rw [filterServers.eq_def]
    simp only [if_pos hc]
  · rw [filterServers.eq_def]
    simp only [if_pos ht, if_pos hc]
    rw [List.filter_filter]
    apply List.filter_congr
    intro s _
    rw [Bool.and_comm]
  · intro tagsQ capabilityQ
    rw [filterServers.eq_def]
    rcases tagsQ with _ | t2 <;> rcases capabilityQ with _ | c2 <;>
      simp only []
    · exact List.Sublist.refl _
    · split
      · exact List.filter_sublist _
      · exact List.Sublist.refl _
    · split
      · exact List.filter_sublist _
      · exact List.Sublist.refl _
    · split <;> split
      · exact (List.filter_sublist _).trans (List.filter_sublist _)
      · exact List.filter_sublist _
      · exact List.filter_sublist _
      · exact List.Sublist.refl _

/-- C5 witness: the theorem applied to the sample catalog with tag
query `"github"` and capability query `"browser"`. -/
theorem filterServers_spec_witness :
    filterServers sampleCatalog none none = sampleCatalog
    ∧ filterServers sampleCatalog (some "github") none =
        sampleCatalog.filter (fun server => server.tags.any (fun tag =>
          (("github".splitOn ",").map (fun x => lowerStr x.trim)).contains (lowerStr tag)))
    ∧ filterServers sampleCatalog none (some "browser") =
        sampleCatalog.filter (fun server => server.capabilities.any (fun cap =>
          jsIncludes (lowerStr cap) (lowerStr "browser")))
    ∧ filterServers sampleCatalog (some "github") (some "browser") =
        sampleCatalog.filter (fun server =>
          (server.tags.any (fun tag =>
            (("github".splitOn ",").map (fun x => lowerStr x.trim)).contains (lowerStr tag)))
          && (server.capabilities.any (fun cap =>
            jsIncludes (lowerStr cap) (lowerStr "browser"))))
    ∧ ∀ tagsQ capabilityQ : Option String,
        (filterServers sampleCatalog tagsQ capabilityQ).Sublist sampleCatalog :=
  filterServers_spec sampleCatalog "github" "browser" (by decide) (by decide)

/-- C6: with any effective limit of at least 1 (the limit is always at
most 100), concatenating the pages obtained by starting with no cursor
and repeatedly following the returned next-cursor until it is null
reproduces the whole filtered sequence exactly, in order. -/
theorem pagination_complete (catalog : List McpServer)
    (tagsQ capabilityQ limitQ : Option String)
    (hL : 1 ≤ effectiveLimit limitQ) :
    effectiveLimit limitQ ≤ 100 ∧
    collectPages catalog tagsQ capabilityQ limitQ
        (filterServers catalog tagsQ capabilityQ).length none =
      filterServers catalog tagsQ capabilityQ := by
  constructor
  · rw [effectiveLimit.eq_def]
    exact min_le_right _ _
  · have hbound : ((filterServers catalog tagsQ capabilityQ).length : Int) ≤
        ((0 : Nat) : Int) +
          (((filterServers catalog tagsQ capabilityQ).length : Int) + 1) *
            effectiveLimit limitQ := by
      have hpos : (0 : Int) ≤
          ((filterServers catalog tagsQ capabilityQ).length : Int) + 1 := by
        positivity
      nlinarith [mul_le_mul_of_nonneg_right hL hpos]
    have h := collectPages_drop catalog tagsQ capabilityQ limitQ hL
      (filterServers catalog tagsQ capabilityQ).length 0 none rfl (by push_cast; push_cast at hbound; omega)
    simpa using h

/-- C6 witness: the theorem applied to the sample catalog with
`limit=1`, paging through both records one at a time. -/
theorem pagination_complete_witness :
    effectiveLimit (some "1") ≤ 100 ∧
    collectPages sampleCatalog none none (some "1")
        (filterServers sampleCatalog none none).length none =
      filterServers sampleCatalog none none :=
  pagination_complete sampleCatalog none none (some "1") (by decide)

/-- C7 counterexample: a route-level `catch` block includes the
exception detail in the 500 body even when `NODE_ENV` is
`"production"`, contradicting the claim that detail is exposed only in
a development configuration. -/
theorem route_error_details_in_production :
    routeErrorDetails "production" "boom" = some "boom" := rfl

/-- C7 amended: the global error handler of `src/index.js` exposes the
exception detail exactly when `NODE_ENV` is `"development"`, but the
per-route `catch` blocks of `src/routes/mcpServers.js` always include
the exception message, whatever the configuration. -/
theorem error_details_exposure (nodeEnv errMessage : String) :
    (globalErrorDetails nodeEnv errMessage ≠ none ↔ nodeEnv = "development")
    ∧ routeErrorDetails nodeEnv errMessage = some errMessage := by
  constructor
  · rw [globalErrorDetails]
    split <;> simp_all
  · rfl

/-- C7 witness: the amended statement at the concrete configuration
`NODE_ENV=production` with message `"boom"`. -/
theorem error_details_exposure_witness :
    (globalErrorDetails "production" "boom" ≠ none ↔
      ("production" : String) = "development")
    ∧ routeErrorDetails "production" "boom" = some "boom" :=
  error_details_exposure "production" "boom"

/-- C8 counterexample: a present-but-empty `format` parameter is falsy
in `req.query.format || 'json'`, so it is answered with the
configuration rather than the 400 `UNSUPPORTED_FORMAT` the claim
requires for every value other than `json`. -/
theorem config_empty_format_counterexample :
    getServerConfig sampleCatalog "github-mcp-server" (some "") =
      ConfigResponse.ok ghServer.configuration
    ∧ some "" ≠ some "json" ∧ some "" ≠ (none : Option String) := by
  refine ⟨rfl, by decide, by decide⟩

/-- C8 amended: for an existing descriptor id, a `format` parameter
that is absent, empty, or `json` is answered with the descriptor's
configuration; any other value is the 400 client error
`UNSUPPORTED_FORMAT`. -/
theorem getServerConfig_spec (catalog : List McpServer) (id : String)
    (formatQ : Option String) (server : McpServer)
    (hfind : catalog.find? (fun s => s.id = id) = some server) :
    getServerConfig catalog id formatQ =
      if formatQ = none ∨ formatQ = some "" ∨ formatQ = some "json" then
        ConfigResponse.ok server.configuration
      else ConfigResponse.unsupportedFormat := by
  rw [getServerConfig.eq_def, hfind]
  rcases formatQ with _ | f
  · simp
  · by_cases hf : f = ""
    · subst hf
      simp
    · by_cases hj : f = "json"
      · subst hj
        simp
      · simp [hf, hj]

/-- C8 witness: the theorem applied to the sample catalog for the
GitHub record with `format=yaml` (rejected) — the hypotheses are
discharged on concrete data. -/
theorem getServerConfig_spec_witness :
    getServerConfig sampleCatalog "github-mcp-server" (some "yaml") =
      if (some "yaml" : Option String) = none ∨ some "yaml" = some "" ∨
          some "yaml" = some "json" then
        ConfigResponse.ok ghServer.configuration
      else ConfigResponse.unsupportedFormat :=
  getServerConfig_spec sampleCatalog "github-mcp-server" (some "yaml") ghServer rfl

theorem handle_snd (catalog : List McpServer) (r : Request) :
    (handle catalog r).2 = catalog := by
  cases r <;> rfl

/-- C9: serving any sequence of requests leaves the catalog store
identical — same records, length and order — and the version-mismatch
annotation of the id route is attached to a copy of the found record
(a record update of the stored value), never written into the store. -/
theorem catalog_immutable (catalog : List McpServer) (reqs : List Request)
    (id version : String) (server : McpServer)
    (hfind : catalog.find? (fun s => s.id = id) = some server)
    (hv : version ≠ "") (hne : version ≠ server.version) :
    runRequests catalog reqs = catalog
    ∧ getServerById catalog id (some version) = ServerResponse.ok
        { server with versionNote := some ("Requested version " ++ version ++
            " not available. Returning current version " ++
            server.version ++ ".") } := by
  constructor
  · rw [runRequests]
    induction reqs with
    | nil => rfl
    | cons r rs ih =>
      rw [List.foldl_cons, handle_snd]
      exact ih
  · rw [getServerById, hfind]
    simp only []
    rw [if_pos (by simp [hv, hne])]

/-- C9 witness: the theorem applied to the sample catalog, a concrete
request sequence hitting all four routes, and a mismatched version
`2.0.0` for the GitHub record. -/
theorem catalog_immutable_witness :
    runRequests sampleCatalog
        [Request.list none none (some "1") none,
         Request.byId "github-mcp-server" (some "2.0.0"),
         Request.config "github-mcp-server" (some "yaml"),
         Request.tools "playwright-mcp-server"] = sampleCatalog
    ∧ getServerById sampleCatalog "github-mcp-server" (some "2.0.0") =
        ServerResponse.ok
          { ghServer with versionNote := some ("Requested version " ++ "2.0.0" ++
              " not available. Returning current version " ++
              ghServer.version ++ ".") } :=
  catalog_immutable sampleCatalog
    [Request.list none none (some "1") none,
     Request.byId "github-mcp-server" (some "2.0.0"),
     Request.config "github-mcp-server" (some "yaml"),
     Request.tools "playwright-mcp-server"]
    "github-mcp-server" "2.0.0" ghServer rfl (by decide) (by decide)

/-- C10: a cursor encoding a negative offset `-k` is used unvalidated:
the returned page is the JavaScript slice of the filtered sequence with
negative start index `-k` (counted from the end of the sequence), and
the next-cursor is computed from `-k + limit`. -/
theorem negative_cursor_unvalidated (catalog : List McpServer)
    (tagsQ capabilityQ limitQ : Option String) (k : Nat) (hk : 0 < k) :
    (listServers catalog tagsQ capabilityQ limitQ
        (some (encodeOffsetCursor (-(k : Int))))).servers =
      jsSlice (filterServers catalog tagsQ capabilityQ) (-(k : Int))
        (-(k : Int) + effectiveLimit limitQ)
    ∧ (listServers catalog tagsQ capabilityQ limitQ
        (some (encodeOffsetCursor (-(k : Int))))).cursor =
      (if -(k : Int) + effectiveLimit limitQ <
          ((filterServers catalog tagsQ capabilityQ).length : Int) then
        some (encodeOffsetCursor (-(k : Int) + effectiveLimit limitQ))
      else none) := by
  have h := listServers_of_offset catalog tagsQ capabilityQ limitQ
    (some (encodeOffsetCursor (-(k : Int)))) (-(k : Int))
    (decodeOffset_encode_neg k hk)
  exact ⟨congrArg ListData.servers h, congrArg ListData.cursor h⟩

/-- C10 witness: the theorem applied to the sample catalog with
`limit=1` and a cursor encoding offset `-1`. -/
theorem negative_cursor_unvalidated_witness :
    (listServers sampleCatalog none none (some "1")
        (some (encodeOffsetCursor (-(1 : Int))))).servers =
      jsSlice (filterServers sampleCatalog none none) (-(1 : Int))
        (-(1 : Int) + effectiveLimit (some "1"))
    ∧ (listServers sampleCatalog none none (some "1")
        (some (encodeOffsetCursor (-(1 : Int))))).cursor =
      (if -(1 : Int) + effectiveLimit (some "1") <
          ((filterServers sampleCatalog none none).length : Int) then
        some (encodeOffsetCursor (-(1 : Int) + effectiveLimit (some "1")))
      else none) :=
  negative_cursor_unvalidated sampleCatalog none none (some "1") 1 (by decide)

end McpRegistry
